import Mathlib

/-!
Verification of the structural-index extractor in `parse.py`.

The development shallowly embeds the data model and operations of the
extractor: paths are lists of components, the filesystem and the external
syntax-tree parser are abstract interfaces (`FS`, `ParsedModule`), fallible
Python code is modelled with `Except PyErr`, and Python's string truthiness
is modelled as comparison with the empty string.
-/

set_option autoImplicit false

/-- A filesystem path, as its list of components (`Path("a/b")` is `["a", "b"]`). -/
abbrev PyPath := List String

/-- Errors raised by the embedded code.  `valueError` models Python's
`ValueError`, `unboundLocalError` models reading a local variable that was
never assigned, `recursionLimit` models exhausting the recursion budget. -/
inductive PyErr where
  | valueError (msg : String)
  | unboundLocalError (var : String)
  | recursionLimit
  deriving Repr, DecidableEq

/-- `EMPTY_STRING` from `parse.py`. -/
def EMPTY_STRING : String := ""

/-- The parser's doc node for an entity: either a leaf token carrying its
literal text, or a composite subtree carrying its stringification. -/
inductive DocNode where
  | leaf (value : String)
  | subtree (rendered : String)
  deriving Repr, DecidableEq

/-- Python `str(...)` on a doc node. -/
def DocNode.str : DocNode → String
  | .leaf value => value
  | .subtree rendered => rendered

/-- `find_node_docstring` from `parse.py`; the argument models the result of
`node.get_doc_node()` (`none` when the node has no doc node). -/
def find_node_docstring (docstring : Option DocNode) : String :=
  match docstring with
  | none => EMPTY_STRING
  | some (DocNode.leaf value) => value
  | some d => DocNode.str d

/-- A parsed `parso.python.tree.Function`: its name and doc node. -/
structure ParsedFunction where
  name : String
  doc : Option DocNode
  deriving Repr, DecidableEq

/-- A parsed `parso.python.tree.Class`: name, doc node, and the function
definitions yielded by `iter_funcdefs()` in order. -/
structure ParsedClass where
  name : String
  doc : Option DocNode
  funcdefs : List ParsedFunction
  deriving Repr, DecidableEq

/-- A parsed module root node: doc node, `iter_classdefs()`, `iter_funcdefs()`. -/
structure ParsedModule where
  doc : Option DocNode
  classdefs : List ParsedClass
  funcdefs : List ParsedFunction
  deriving Repr, DecidableEq

/-- The `FunctionDef` pydantic model (field order as declared in `parse.py`). -/
structure FunctionDef where
  docstring : String
  name : String
  name_space : String
  class_name : String
  module_name : String
  package_name : String
  deriving Repr, DecidableEq

/-- The `ClassDef` pydantic model. -/
structure ClassDef where
  docstring : String
  name : String
  name_space : String
  module_name : String
  package_name : String
  methods : List FunctionDef
  deriving Repr, DecidableEq

/-- The `Module` pydantic model (named `PyModule` here because Mathlib already
declares `Module`). -/
structure PyModule where
  name_space : String
  docstring : String
  classes : List ClassDef
  functions : List FunctionDef
  package_name : String
  deriving Repr, DecidableEq

/-- Python list comprehension over fallible element construction: builds the
results in order, propagating the first exception. -/
def mapME {α β : Type} (f : α → Except PyErr β) : List α → Except PyErr (List β)
  | [] => .ok []
  | x :: xs =>
    match f x with
    | .error e => .error e
    | .ok y =>
      match mapME f xs with
      | .error e => .error e
      | .ok ys => .ok (y :: ys)

/-- `FunctionDef.from_parsed_function`.  The `if`/`elif` chain assigns the
local `root_namespace` only when some context name is truthy; when all three
are empty the subsequent `if not root_namespace:` reads an unassigned local,
which raises `UnboundLocalError` (so the `ValueError` branch is dead code). -/
def FunctionDef.from_parsed_function (parsed_function : ParsedFunction)
    (class_name module_name package_name : String) : Except PyErr FunctionDef :=
  let docstring := find_node_docstring parsed_function.doc
  let name := parsed_function.name
  let root_namespace : Option String :=
    if module_name ≠ EMPTY_STRING then some module_name
    else if package_name ≠ EMPTY_STRING then some package_name
    else if class_name ≠ EMPTY_STRING then some class_name
    else none
  match root_namespace with
  | none => .error (PyErr.unboundLocalError ("root_namespace"))
  | some rn =>
    if rn = EMPTY_STRING then
      .error (PyErr.valueError
        ("Make sure a functions module_name, package_name, or class_name is set"))
    else
      .ok {
        docstring := docstring
        name := name
        name_space := rn ++ "." ++ name
        class_name := class_name
        module_name := module_name
        package_name := package_name
      }

/-- `ClassDef.from_parsed_class`.  As with functions, the local `namespace`
is unassigned when both context names are empty, so the falsiness check
raises `UnboundLocalError` and the `ValueError` branch is dead code.  Each
method is built with `class_name` set to the class's own namespace. -/
def ClassDef.from_parsed_class (parsed_class : ParsedClass)
    (module_name package_name : String) : Except PyErr ClassDef :=
  let docstring := find_node_docstring parsed_class.doc
  let name := parsed_class.name
  let ns : Option String :=
    if module_name ≠ EMPTY_STRING then some (module_name ++ "." ++ name)
    else if package_name ≠ EMPTY_STRING then some (package_name ++ "." ++ name)
    else none
  match ns with
  | none => .error (PyErr.unboundLocalError ("namespace"))
  | some ns =>
    if ns = EMPTY_STRING then
      .error (PyErr.valueError
        ("Make sure a class module_name or package_name is set"))
    else
      match mapME (fun funcdef =>
          FunctionDef.from_parsed_function funcdef ns EMPTY_STRING EMPTY_STRING)
          parsed_class.funcdefs with
      | .error e => .error e
      | .ok methods =>
        .ok {
          docstring := docstring
          name := name
          name_space := ns
          module_name := module_name
          package_name := package_name
          methods := methods
        }

/-- `ClassDef.all_methods` (the generator, flattened to a list). -/
def ClassDef.all_methods (c : ClassDef) : List FunctionDef := c.methods

/-- `Module.all_functions`: top-level functions, then each class's methods. -/
def PyModule.all_functions (m : PyModule) : List FunctionDef :=
  m.functions ++ (m.classes.map ClassDef.all_methods).flatten

/-- A string of the shape `a ++ "." ++ b` is never empty. -/
theorem append_dot_ne_empty (a b : String) : a ++ "." ++ b ≠ EMPTY_STRING := by
  intro h
  have hlen := congrArg String.length h
  have hdot : (("." : String)).length = 1 := rfl
  have hemp : ((EMPTY_STRING : String)).length = 0 := rfl
  rw [String.length_append, String.length_append, hdot, hemp] at hlen
  omega

/-- Every successful `mapME` output element comes from a successful
application of `f` to some input element. -/
theorem mapME_ok_mem {α β : Type} (f : α → Except PyErr β) :
    ∀ (l : List α) (ys : List β), mapME f l = .ok ys →
      ∀ y ∈ ys, ∃ x ∈ l, f x = .ok y := by
  intro l
  induction l with
  | nil =>
    intro ys h y hy
    simp only [mapME, Except.ok.injEq] at h
    subst h
    simp at hy
  | cons x xs ih =>
    intro ys h y hy
    simp only [mapME] at h
    cases hfx : f x with
    | error e => rw [hfx] at h; exact absurd h (by simp)
    | ok y0 =>
      rw [hfx] at h
      cases hxs : mapME f xs with
      | error e => rw [hxs] at h; exact absurd h (by simp)
      | ok ys0 =>
        rw [hxs] at h
        simp only [Except.ok.injEq] at h
        subst h
        rcases List.mem_cons.mp hy with h1 | h2
        · exact ⟨x, List.mem_cons_self x xs, by rw [hfx, h1]⟩
        · obtain ⟨x2, hx2, hfx2⟩ := ih ys0 hxs y h2
          exact ⟨x2, List.mem_cons_of_mem _ hx2, hfx2⟩

/-- Characterization of a successful `from_parsed_function` call: the
back-references are copied verbatim, and the namespace is the first truthy
context name (module, then package, then class) joined to the name. -/
theorem fpf_ok {pf : ParsedFunction} {cn mn pn : String} {fd : FunctionDef}
    (h : FunctionDef.from_parsed_function pf cn mn pn = .ok fd) :
    fd.class_name = cn ∧ fd.module_name = mn ∧ fd.package_name = pn ∧
    fd.name = pf.name ∧ fd.docstring = find_node_docstring pf.doc ∧
    fd.name_space =
      (if mn ≠ EMPTY_STRING then mn else if pn ≠ EMPTY_STRING then pn else cn)
        ++ "." ++ pf.name ∧
    (mn ≠ EMPTY_STRING ∨ pn ≠ EMPTY_STRING ∨ cn ≠ EMPTY_STRING) := by
  unfold FunctionDef.from_parsed_function at h
  by_cases hm : mn = EMPTY_STRING <;> by_cases hp : pn = EMPTY_STRING <;>
    by_cases hc : cn = EMPTY_STRING <;>
    simp only [hm, hp, hc, ne_eq, not_true_eq_false, not_false_eq_true,
      if_true, if_false, ite_true, ite_false] at h ⊢
  · exact absurd h (by simp)
  all_goals (simp only [Except.ok.injEq] at h; subst h; simp_all)

/-- Characterization of a successful `from_parsed_class` call. -/
theorem fpc_ok {pc : ParsedClass} {mn pn : String} {cd : ClassDef}
    (h : ClassDef.from_parsed_class pc mn pn = .ok cd) :
    cd.module_name = mn ∧ cd.package_name = pn ∧ cd.name = pc.name ∧
    cd.name_space =
      (if mn ≠ EMPTY_STRING then mn else pn) ++ "." ++ pc.name ∧
    (mn ≠ EMPTY_STRING ∨ pn ≠ EMPTY_STRING) ∧
    (∀ g ∈ cd.methods, g.class_name = cd.name_space ∧
      g.module_name = EMPTY_STRING ∧ g.package_name = EMPTY_STRING ∧
      g.name_space = cd.name_space ++ "." ++ g.name) := by
  unfold ClassDef.from_parsed_class at h
  by_cases hm : mn = EMPTY_STRING <;> by_cases hp : pn = EMPTY_STRING <;>
    simp only [hm, hp, ne_eq, not_true_eq_false, not_false_eq_true,
      if_true, if_false, ite_true, ite_false] at h ⊢
  · exact absurd h (by simp)
  all_goals (
    rw [if_neg (append_dot_ne_empty _ _)] at h
    split at h
    case _ e hms => exact absurd h (by simp)
    case _ methods hms =>
      simp only [Except.ok.injEq] at h
      subst h
      refine ⟨rfl, rfl, rfl, rfl, by simp [hm, hp], ?_⟩
      intro g hg
      obtain ⟨pf2, hpf2, hok2⟩ := mapME_ok_mem _ _ _ hms g hg
      obtain ⟨h1, h2, h3, h4, _, h6, _⟩ := fpf_ok hok2
      refine ⟨h1, h2, h3, ?_⟩
      rw [h6, h4]
      simp [EMPTY_STRING] )

/-- Split a list of characters at every dot, modelling
`name.replace(".", os.path.sep)` followed by taking path components. -/
def splitDotsAux : List Char → List (List Char)
  | [] => [[]]
  | c :: rest =>
    let r := splitDotsAux rest
    if c = '.' then [] :: r
    else
      match r with
      | [] => [[c]]
      | h :: t => (c :: h) :: t

/-- Dotted name to relative path components (`"a.b"` to `["a", "b"]`). -/
def splitDots (s : String) : PyPath :=
  (splitDotsAux s.data).map (fun cs => String.mk cs)

/-- Characters of a filename with its last dot-suffix removed; no dot, or a
dot only at position zero, leaves the name unchanged (Python `Path.stem`). -/
def dropSuffixChars (cs : List Char) : List Char :=
  match cs.reverse.dropWhile (fun c => c ≠ '.') with
  | [] => cs
  | [_] => cs
  | _ :: rest => rest.reverse

/-- Python `Path.stem` of an entry name. -/
def stemOf (s : String) : String := String.mk (dropSuffixChars s.data)

/-- Python `str.startswith`. -/
def strStarts (s pre : String) : Bool := List.isPrefixOf pre.data s.data

/-- Python `str.endswith`. -/
def strEnds (s suf : String) : Bool :=
  List.isPrefixOf suf.data.reverse s.data.reverse

/-- Render a relative path with slashes, for the locator's error message. -/
def joinPath : PyPath → String
  | [] => EMPTY_STRING
  | [c] => c
  | c :: rest => c ++ "/" ++ joinPath rest

/-- The `ValueError` message of `find_in_sys_path`. -/
def not_found_message (file_path : PyPath) : String :=
  joinPath file_path ++ " not found in sys.path!"

/-- The filesystem and external-parser interface the extractor runs against:
the raw interpreter search path (`sys.path`), directory and file existence
probes, directory listing in filesystem order, and the syntax-tree parser
applied to the text of the file at a path. -/
structure FS where
  sys_path : List PyPath
  isDir : PyPath → Bool
  isFile : PyPath → Bool
  listDir : PyPath → List String
  parsed : PyPath → ParsedModule

/-- The module-level `SYS_PATH` list: `sys.path` filtered to existing
directories. -/
def SYS_PATH (fs : FS) : List PyPath := fs.sys_path.filter fs.isDir

/-- `find_in_sys_path`: return the first search root under which the file
exists, joined with the relative path; raise `ValueError` otherwise. -/
def find_in_sys_path (fs : FS) (file_path : PyPath) : Except PyErr PyPath :=
  match (SYS_PATH fs).find? (fun sys_path => fs.isFile (sys_path ++ file_path)) with
  | some sys_path => .ok (sys_path ++ file_path)
  | none => .error (PyErr.valueError (not_found_message file_path))

/-- `Module.from_path`: parse the file, take its docstring, and build its
top-level classes then functions, each with `module_name` set to the
module's namespace. -/
def PyModule.from_path (fs : FS) (ns : String) (path : PyPath)
    (package_name : String) : Except PyErr PyModule :=
  let parsed := fs.parsed path
  let docstring := find_node_docstring parsed.doc
  match mapME (fun classdef =>
      ClassDef.from_parsed_class classdef ns EMPTY_STRING) parsed.classdefs with
  | .error e => .error e
  | .ok classes =>
    match mapME (fun funcdef =>
        FunctionDef.from_parsed_function funcdef EMPTY_STRING ns EMPTY_STRING)
        parsed.funcdefs with
    | .error e => .error e
    | .ok functions =>
      .ok {
        name_space := ns
        docstring := docstring
        classes := classes
        functions := functions
        package_name := package_name
      }

/-- The `Package` pydantic model; `path` models the private `_path`
attribute.  Recursive, so declared as a single-constructor inductive. -/
inductive Package where
  | mk (name : String) (docstring : String) (package_name : String)
      (functions : List FunctionDef) (classes : List ClassDef)
      (modules : List PyModule) (subpackages : List Package) (path : PyPath)

def Package.name : Package → String
  | .mk n _ _ _ _ _ _ _ => n

def Package.docstring : Package → String
  | .mk _ d _ _ _ _ _ _ => d

def Package.package_name : Package → String
  | .mk _ _ pn _ _ _ _ _ => pn

def Package.functions : Package → List FunctionDef
  | .mk _ _ _ fns _ _ _ _ => fns

def Package.classes : Package → List ClassDef
  | .mk _ _ _ _ cls _ _ _ => cls

def Package.modules : Package → List PyModule
  | .mk _ _ _ _ _ mods _ _ => mods

def Package.subpackages : Package → List Package
  | .mk _ _ _ _ _ _ subs _ => subs

def Package.path : Package → PyPath
  | .mk _ _ _ _ _ _ _ p => p

/-- `Package._find_functions`: hoist the `__init__` module's functions,
rewriting each namespace to `{name}.{fn.name}` and stamping `package_name`
(the original `module_name` is left in place). -/
def Package.find_functions (name : String) (package_module : PyModule) :
    List FunctionDef :=
  package_module.functions.map (fun function_def =>
    { function_def with
        name_space := name ++ "." ++ function_def.name
        package_name := name })

/-- `Package._find_classes`: hoist the `__init__` module's classes the same
way (methods inside each class are untouched). -/
def Package.find_classes (name : String) (package_module : PyModule) :
    List ClassDef :=
  package_module.classes.map (fun classdef =>
    { classdef with
        name_space := name ++ "." ++ classdef.name
        package_name := name })

/-- `Package._find_modules`: every `*.py` entry of the package directory not
starting with `__`, loaded as a module named `{name}.{stem}`. -/
def Package.find_modules (fs : FS) (name : String) (path : PyPath) :
    Except PyErr (List PyModule) :=
  let module_list := (fs.listDir path.dropLast).filter
    (fun m => strEnds m (".py") && !(strStarts m ("__")))
  mapME (fun mp =>
    PyModule.from_path fs (name ++ "." ++ stemOf mp) (path.dropLast ++ [mp]) name)
    module_list

/-- One unfolding of `Package.__init__` given a loader for subpackages:
resolve `{name as path}/__init__.py` on the search path, build the package's
own module from it, hoist its functions and classes, load sibling modules,
and recursively load each subdirectory that contains `__init__.py`. -/
def Package.load_body (fs : FS)
    (loadRec : String → String → Except PyErr Package)
    (name package_name : String) : Except PyErr Package :=
  let namespace_path : PyPath := splitDots name
  let package_path : PyPath := namespace_path ++ ["__init__.py"]
  match find_in_sys_path fs package_path with
  | .error e => .error e
  | .ok path =>
    match PyModule.from_path fs name path EMPTY_STRING with
    | .error e => .error e
    | .ok package_module =>
      match Package.find_modules fs name path with
      | .error e => .error e
      | .ok modules =>
        let folder_list := (fs.listDir path.dropLast).filter
          (fun d => fs.isDir (path.dropLast ++ [d]))
        let sub_dirs := folder_list.filter
          (fun d => fs.isFile (path.dropLast ++ [d, "__init__.py"]))
        match mapME (fun d => loadRec (name ++ "." ++ stemOf d) name) sub_dirs with
        | .error e => .error e
        | .ok subpackages =>
          .ok (Package.mk name package_module.docstring package_name
            (Package.find_functions name package_module)
            (Package.find_classes name package_module)
            modules subpackages path)

/-- `Package.__init__`, with an explicit recursion budget (the directory
tree is finite in Python; `fuel` makes the eager recursive construction a
total function).  Defined through `Nat.rec` so that it evaluates by kernel
reduction. -/
def Package.load (fs : FS) (fuel : Nat) : String → String → Except PyErr Package :=
  @Nat.rec (fun _ => String → String → Except PyErr Package)
    (fun _ _ => .error PyErr.recursionLimit)
    (fun _ ih => Package.load_body fs ih)
    fuel

theorem Package.load_succ (fs : FS) (fuel : Nat) (name package_name : String) :
    Package.load fs (fuel + 1) name package_name =
      Package.load_body fs (Package.load fs fuel) name package_name := rfl

/-- `Package.all_functions`: own hoisted functions, own hoisted classes'
methods, sibling modules' functions, then subpackages, recursively. -/
def Package.all_functions : Package → List FunctionDef
  | .mk _ _ _ functions classes modules subpackages _ =>
    functions ++ (classes.map ClassDef.all_methods).flatten
      ++ (modules.map PyModule.all_functions).flatten
      ++ (subpackages.attach.map (fun sp => Package.all_functions sp.1)).flatten
decreasing_by
  have hlt := List.sizeOf_lt_of_mem sp.2
  simp only [Package.mk.sizeOf_spec]
  omega

/-- Characterization of a successful `Module.from_path`: namespace and
package back-reference are stored verbatim, top-level functions carry only
the module back-reference, and methods carry only their class's namespace. -/
theorem from_path_ok {fs : FS} {ns : String} {path : PyPath} {pn : String}
    {m : PyModule} (h : PyModule.from_path fs ns path pn = .ok m) :
    m.name_space = ns ∧ m.package_name = pn ∧
    m.docstring = find_node_docstring (fs.parsed path).doc ∧
    (∀ f ∈ m.functions, f.class_name = EMPTY_STRING ∧
      f.package_name = EMPTY_STRING ∧ f.module_name = ns ∧
      ns ≠ EMPTY_STRING ∧ f.name_space = ns ++ "." ++ f.name) ∧
    (∀ c ∈ m.classes, c.module_name = ns ∧ c.package_name = EMPTY_STRING ∧
      ns ≠ EMPTY_STRING ∧ c.name_space = ns ++ "." ++ c.name ∧
      ∀ g ∈ c.methods, g.class_name = c.name_space ∧
        g.module_name = EMPTY_STRING ∧ g.package_name = EMPTY_STRING ∧
        g.name_space = c.name_space ++ "." ++ g.name) := by
  simp only [PyModule.from_path] at h
  split at h
  next e hcs => exact absurd h (by simp)
  next classes hcs =>
    split at h
    next e hfs => exact absurd h (by simp)
    next functions hfs =>
      simp only [Except.ok.injEq] at h
      subst h
      refine ⟨rfl, rfl, rfl, ?_, ?_⟩
      · intro f hf
        obtain ⟨pf, hpf, hok⟩ := mapME_ok_mem _ _ _ hfs f hf
        obtain ⟨h1, h2, h3, h4, _, h6, h7⟩ := fpf_ok hok
        have hns : ns ≠ EMPTY_STRING := by
          rcases h7 with h' | h' | h' <;> simp_all
        refine ⟨h1, h3, h2, hns, ?_⟩
        rw [h6, h4, if_pos hns]
      · intro c hc
        obtain ⟨pc, hpc, hok⟩ := mapME_ok_mem _ _ _ hcs c hc
        obtain ⟨h1, h2, h3, h4, h5, h6⟩ := fpc_ok hok
        have hns : ns ≠ EMPTY_STRING := by
          rcases h5 with h' | h' <;> simp_all
        refine ⟨h1, h2, hns, ?_, ?_⟩
        · rw [h4, if_pos hns, h3]
        · intro g hg
          exact h6 g hg

/-- Claim C1: constructing a `FunctionDef` through `from_parsed_function`
with at least one of `module_name`, `package_name`, `class_name` non-empty
succeeds, and the resulting namespace is `{root_namespace}.{name}` where
`root_namespace` is `module_name` if non-empty, else `package_name` if
non-empty, else `class_name`. -/
theorem C1_function_namespace (pf : ParsedFunction) (cn mn pn : String)
    (h : mn ≠ EMPTY_STRING ∨ pn ≠ EMPTY_STRING ∨ cn ≠ EMPTY_STRING) :
    (FunctionDef.from_parsed_function pf cn mn pn).map FunctionDef.name_space =
      .ok ((if mn ≠ EMPTY_STRING then mn
            else if pn ≠ EMPTY_STRING then pn
            else cn) ++ "." ++ pf.name) := by
  cases hres : FunctionDef.from_parsed_function pf cn mn pn with
  | error e =>
    exfalso
    unfold FunctionDef.from_parsed_function at hres
    rcases h with h' | h' | h' <;>
      by_cases hm : mn = EMPTY_STRING <;> by_cases hp : pn = EMPTY_STRING <;>
      by_cases hc : cn = EMPTY_STRING <;>
      simp only [hm, hp, hc, ne_eq, not_true_eq_false, not_false_eq_true,
        if_true, if_false, ite_true, ite_false] at hres h' <;>
      first
      | exact h'
      | exact absurd hres (by simp)
  | ok fd =>
    obtain ⟨_, _, _, h4, _, h6, _⟩ := fpf_ok hres
    simp only [Except.map, h6, h4]

def pfC1 : ParsedFunction where
  name := "foo"
  doc := none

theorem C1_function_namespace_witness :
    (FunctionDef.from_parsed_function pfC1 EMPTY_STRING ("pkg.mod") EMPTY_STRING).map
        FunctionDef.name_space =
      .ok ((if ("pkg.mod" : String) ≠ EMPTY_STRING then ("pkg.mod")
            else if (EMPTY_STRING : String) ≠ EMPTY_STRING then EMPTY_STRING
            else EMPTY_STRING) ++ "." ++ pfC1.name) :=
  C1_function_namespace pfC1 EMPTY_STRING ("pkg.mod") EMPTY_STRING
    (Or.inl (by decide))

/-- Claim C3 (code bug): with all three context names empty, the code does
fail and produces no entity, but not with the `ValueError` configuration
error the spec describes: the guard `if not root_namespace:` (resp.
`if not namespace:`) reads a local that the `if`/`elif` chain never
assigned, so Python raises `UnboundLocalError` and the `raise ValueError`
statements in `from_parsed_function`/`from_parsed_class` are unreachable. -/
theorem C3_unbound_local_error :
    FunctionDef.from_parsed_function { name := "f", doc := none }
        EMPTY_STRING EMPTY_STRING EMPTY_STRING =
      .error (PyErr.unboundLocalError ("root_namespace")) ∧
    ClassDef.from_parsed_class { name := "C", doc := none, funcdefs := [] }
        EMPTY_STRING EMPTY_STRING =
      .error (PyErr.unboundLocalError ("namespace")) :=
  ⟨rfl, rfl⟩

/-- Claim C4: every method of a `ClassDef` built by `from_parsed_class` has
namespace `{class namespace}.{method name}`. -/
theorem C4_method_namespace (pc : ParsedClass) (mn pn : String)
    (cd : ClassDef) (h : ClassDef.from_parsed_class pc mn pn = .ok cd) :
    ∀ g ∈ cd.methods, g.name_space = cd.name_space ++ "." ++ g.name := by
  intro g hg
  obtain ⟨_, _, _, _, _, h6⟩ := fpc_ok h
  exact (h6 g hg).2.2.2

def pcC4 : ParsedClass where
  name := "Baz"
  doc := none
  funcdefs := [{ name := "bar", doc := none }]

def fdC4 : FunctionDef where
  docstring := EMPTY_STRING
  name := "bar"
  name_space := "pkg.mod.Baz.bar"
  class_name := "pkg.mod.Baz"
  module_name := EMPTY_STRING
  package_name := EMPTY_STRING

def cdC4 : ClassDef where
  docstring := EMPTY_STRING
  name := "Baz"
  name_space := "pkg.mod.Baz"
  module_name := "pkg.mod"
  package_name := EMPTY_STRING
  methods := [fdC4]

theorem C4_method_namespace_witness :
    fdC4.name_space = cdC4.name_space ++ "." ++ fdC4.name :=
  C4_method_namespace pcC4 ("pkg.mod") EMPTY_STRING cdC4 rfl fdC4
    (by simp [cdC4])

/-- Claim C5: `Package.all_functions` yields the package's own hoisted
functions, then its hoisted classes' methods in class order, then
`all_functions` of each sibling module in discovery order, then
`all_functions` of each subpackage in discovery order. -/
theorem C5_all_functions_order (p : Package) :
    p.all_functions =
      p.functions ++ (p.classes.map ClassDef.all_methods).flatten
        ++ (p.modules.map PyModule.all_functions).flatten
        ++ (p.subpackages.map Package.all_functions).flatten := by
  cases p with
  | mk n d pn fns cls mods subs pth =>
    rw [Package.all_functions, List.attach_map_val]
    rfl

/-- Claim C7: the extracted docstring is empty when the doc node is absent,
the leaf's literal text when the doc node is a leaf token, and the
stringification of the subtree otherwise. -/
theorem C7_find_node_docstring :
    find_node_docstring none = EMPTY_STRING ∧
    (∀ value, find_node_docstring (some (DocNode.leaf value)) = value) ∧
    (∀ d, (∀ value, d ≠ DocNode.leaf value) →
      find_node_docstring (some d) = DocNode.str d) := by
  refine ⟨rfl, fun value => rfl, fun d hd => ?_⟩
  cases d with
  | leaf value => exact absurd rfl (hd value)
  | subtree rendered => rfl

/-- `List.find?` returns the head of the first satisfying suffix. -/
theorem find?_first {α : Type} (p : α → Bool) (pre : List α) (r : α)
    (post : List α) (hpre : ∀ x ∈ pre, p x = false) (hr : p r = true) :
    (pre ++ r :: post).find? p = some r := by
  induction pre with
  | nil => simp [List.find?_cons, hr]
  | cons a as ih =>
    have ha := hpre a (by simp)
    rw [List.cons_append, List.find?_cons]
    simp only [ha, cond_false]
    exact ih (fun x hx => hpre x (by simp [hx]))

/-- Claim C6: `find_in_sys_path` returns the relative path joined under the
first search root — in the order of `sys.path` restricted to existing
directories — under which the file exists, and raises the
not-found `ValueError` when no configured root contains the file. -/
theorem C6_find_in_sys_path (fs : FS) (fp : PyPath) (pre : List PyPath)
    (r : PyPath) (post : List PyPath) :
    (SYS_PATH fs = pre ++ r :: post →
      fs.isFile (r ++ fp) = true →
      (∀ r2 ∈ pre, fs.isFile (r2 ++ fp) = false) →
      find_in_sys_path fs fp = .ok (r ++ fp)) ∧
    ((∀ r2 ∈ SYS_PATH fs, fs.isFile (r2 ++ fp) = false) →
      find_in_sys_path fs fp =
        .error (PyErr.valueError (not_found_message fp))) := by
  constructor
  · intro hsp hr hpre
    unfold find_in_sys_path
    rw [hsp, find?_first _ pre r post hpre hr]
  · intro hall
    unfold find_in_sys_path
    rw [List.find?_eq_none.mpr (fun x hx => by simp [hall x hx])]

/-- A small two-root world: the interpreter path also lists a vanished
directory, and `f.py` exists under the second real root (and under the
vanished one, which must be skipped). -/
def fsC6 : FS where
  sys_path := [["gone"], ["root1"], ["root2"]]
  isDir := fun p => p == ["root1"] || p == ["root2"]
  isFile := fun p => p == ["root2", "f.py"] || p == ["gone", "f.py"]
  listDir := fun _ => []
  parsed := fun _ => { doc := none, classdefs := [], funcdefs := [] }

theorem C6_find_in_sys_path_witness :
    find_in_sys_path fsC6 ["f.py"] = .ok (["root2"] ++ ["f.py"]) ∧
    find_in_sys_path fsC6 ["g.py"] =
      .error (PyErr.valueError (not_found_message ["g.py"])) := by
  constructor
  · exact (C6_find_in_sys_path fsC6 ["f.py"] [["root1"]] ["root2"] []).1
      (by decide) (by decide) (by decide)
  · exact (C6_find_in_sys_path fsC6 ["g.py"] [] [] []).2 (by decide)

/-- Claim C9: hoisting is idempotent on namespaces.  The package's own
`__init__` module is parsed with the package's name as its namespace, so
each of its functions and classes already has namespace
`{name}.{entity.name}`, and the rewrite in `_find_functions` /
`_find_classes` leaves every namespace unchanged. -/
theorem C9_hoist_idempotent (fs : FS) (name : String) (path : PyPath)
    (m : PyModule) (h : PyModule.from_path fs name path EMPTY_STRING = .ok m) :
    (Package.find_functions name m).map FunctionDef.name_space =
      m.functions.map FunctionDef.name_space ∧
    (Package.find_classes name m).map ClassDef.name_space =
      m.classes.map ClassDef.name_space := by
  obtain ⟨-, -, -, hf, hc⟩ := from_path_ok h
  constructor
  · unfold Package.find_functions
    rw [List.map_map]
    apply List.map_congr_left
    intro f hfm
    obtain ⟨-, -, -, -, h5⟩ := hf f hfm
    simp [h5]
  · unfold Package.find_classes
    rw [List.map_map]
    apply List.map_congr_left
    intro c hcm
    obtain ⟨-, -, -, h4, -⟩ := hc c hcm
    simp [h4]

/-- A one-package world whose `__init__.py` defines one function and one
class with one method. -/
def fsC9 : FS where
  sys_path := [["r"]]
  isDir := fun p => p == ["r"]
  isFile := fun p => p == ["r", "p", "__init__.py"]
  listDir := fun _ => []
  parsed := fun p =>
    if p == ["r", "p", "__init__.py"] then
      { doc := none
        classdefs := [{ name := "C", doc := none,
                        funcdefs := [{ name := "m", doc := none }] }]
        funcdefs := [{ name := "f", doc := none }] }
    else
      { doc := none, classdefs := [], funcdefs := [] }

/-- The module built from `fsC9`'s `__init__.py` with namespace `p`. -/
def mC9 : PyModule where
  name_space := "p"
  docstring := EMPTY_STRING
  classes := [{ docstring := EMPTY_STRING, name := "C", name_space := "p.C",
                module_name := "p", package_name := EMPTY_STRING,
                methods := [{ docstring := EMPTY_STRING, name := "m",
                              name_space := "p.C.m", class_name := "p.C",
                              module_name := EMPTY_STRING,
                              package_name := EMPTY_STRING }] }]
  functions := [{ docstring := EMPTY_STRING, name := "f", name_space := "p.f",
                  class_name := EMPTY_STRING, module_name := "p",
                  package_name := EMPTY_STRING }]
  package_name := EMPTY_STRING

theorem C9_hoist_idempotent_witness :
    (Package.find_functions ("p") mC9).map FunctionDef.name_space =
      mC9.functions.map FunctionDef.name_space ∧
    (Package.find_classes ("p") mC9).map ClassDef.name_space =
      mC9.classes.map ClassDef.name_space :=
  C9_hoist_idempotent fsC9 ("p") ["r", "p", "__init__.py"] mC9 rfl

/-- Unfolding equation for `Package.all_functions` on a constructor. -/
theorem all_functions_mk (n d pn : String) (fns : List FunctionDef)
    (cls : List ClassDef) (mods : List PyModule) (subs : List Package)
    (pth : PyPath) :
    Package.all_functions (Package.mk n d pn fns cls mods subs pth) =
      fns ++ (cls.map ClassDef.all_methods).flatten
        ++ (mods.map PyModule.all_functions).flatten
        ++ (subs.map Package.all_functions).flatten := by
  rw [Package.all_functions, List.attach_map_val]

/-- Number of non-empty back-references on a `FunctionDef`. -/
def backRefCount (f : FunctionDef) : Nat :=
  (if f.class_name = EMPTY_STRING then 0 else 1)
    + (if f.module_name = EMPTY_STRING then 0 else 1)
    + (if f.package_name = EMPTY_STRING then 0 else 1)

/-- Functions reachable from a freshly parsed module (its own plus its
classes' methods) carry at most one non-empty back-reference. -/
theorem module_backRefCount {fs : FS} {ns : String} {path : PyPath}
    {pn : String} {m : PyModule} (h : PyModule.from_path fs ns path pn = .ok m) :
    ∀ f ∈ m.all_functions, backRefCount f ≤ 1 := by
  obtain ⟨-, -, -, hf, hc⟩ := from_path_ok h
  intro f hfm
  unfold PyModule.all_functions at hfm
  rw [List.mem_append] at hfm
  rcases hfm with hfm | hfm
  · obtain ⟨h1, h2, h3, -, -⟩ := hf f hfm
    simp only [backRefCount, h1, h2, h3, if_true, ite_true]
    split <;> omega
  · rw [List.mem_flatten] at hfm
    obtain ⟨ms, hms, hfm⟩ := hfm
    rw [List.mem_map] at hms
    obtain ⟨c, hcm, hceq⟩ := hms
    subst hceq
    obtain ⟨-, -, -, -, hmeth⟩ := hc c hcm
    obtain ⟨h1, h2, h3, -⟩ := hmeth f hfm
    simp only [backRefCount, h1, h2, h3, if_true, ite_true]
    split <;> omega

/-- A one-root world with a single package `p` whose `__init__.py` defines
one top-level function `f`. -/
def fsC2 : FS where
  sys_path := [["r"]]
  isDir := fun p => p == ["r"]
  isFile := fun p => p == ["r", "p", "__init__.py"]
  listDir := fun p => if p == ["r", "p"] then ["__init__.py"] else []
  parsed := fun p =>
    if p == ["r", "p", "__init__.py"] then
      { doc := none, classdefs := [], funcdefs := [{ name := "f", doc := none }] }
    else
      { doc := none, classdefs := [], funcdefs := [] }

/-- The function `p.f` as hoisted onto the package: `_find_functions` stamps
`package_name` but leaves the original `module_name` in place. -/
def fC2 : FunctionDef where
  docstring := EMPTY_STRING
  name := "f"
  name_space := "p.f"
  class_name := EMPTY_STRING
  module_name := "p"
  package_name := "p"

/-- The package built by loading `p` from `fsC2`. -/
def pkgC2 : Package :=
  Package.mk ("p") EMPTY_STRING EMPTY_STRING [fC2] [] [] [] ["r", "p", "__init__.py"]

/-- Claim C2 fails on the code: loading a package whose `__init__.py`
defines a function yields a reachable `FunctionDef` with two non-empty
back-references, because the hoist stamps `package_name` without clearing
`module_name`. -/
theorem C2_back_references_counterexample :
    Package.load fsC2 1 ("p") EMPTY_STRING = .ok pkgC2 ∧
    fC2 ∈ pkgC2.all_functions ∧
    fC2.module_name = "p" ∧ fC2.package_name = "p" ∧
    ¬ backRefCount fC2 ≤ 1 := by
  refine ⟨rfl, ?_, rfl, rfl, by decide⟩
  simp [pkgC2, Package.all_functions, fC2]

/-- Claim C2, amended: after a `Package` is fully constructed, every
reachable `FunctionDef` has at most one non-empty back-reference, except
the functions hoisted from a package's `__init__` module, which keep their
`module_name` and additionally get `package_name` stamped — both equal to
the owning package's (non-empty) dotted name, with `class_name` empty. -/
theorem C2_back_references_amended (fs : FS) :
    ∀ (fuel : Nat) (name package_name : String) (p : Package),
      Package.load fs fuel name package_name = .ok p →
      ∀ f ∈ p.all_functions,
        backRefCount f ≤ 1 ∨
        (f.class_name = EMPTY_STRING ∧ f.module_name = f.package_name ∧
          f.package_name ≠ EMPTY_STRING) := by
  intro fuel
  induction fuel with
  | zero =>
    intro name pn p h
    exact absurd h (by simp [Package.load])
  | succ fuel ih =>
    intro name pn p h
    rw [Package.load_succ] at h
    simp only [Package.load_body] at h
    split at h
    next e h1 => exact absurd h (by simp)
    next path h1 =>
      split at h
      next e h2 => exact absurd h (by simp)
      next package_module h2 =>
        split at h
        next e h3 => exact absurd h (by simp)
        next modules h3 =>
          split at h
          next e h4 => exact absurd h (by simp)
          next subpackages h4 =>
            simp only [Except.ok.injEq] at h
            subst h
            intro f hf
            rw [all_functions_mk] at hf
            simp only [List.append_assoc, List.mem_append] at hf
            rcases hf with hf | hf | hf | hf
            · -- hoisted from the package's own `__init__` module
              unfold Package.find_functions at hf
              rw [List.mem_map] at hf
              obtain ⟨g, hg, hgeq⟩ := hf
              obtain ⟨-, -, -, hfns, -⟩ := from_path_ok h2
              obtain ⟨hg1, -, hg3, hg4, -⟩ := hfns g hg
              subst hgeq
              right
              exact ⟨hg1, by rw [hg3], hg4⟩
            · -- methods of classes hoisted from `__init__`
              rw [List.mem_flatten] at hf
              obtain ⟨ms, hms, hf⟩ := hf
              rw [List.mem_map] at hms
              obtain ⟨c2, hc2, hceq⟩ := hms
              unfold Package.find_classes at hc2
              rw [List.mem_map] at hc2
              obtain ⟨c, hcm, hceq2⟩ := hc2
              obtain ⟨-, -, -, -, hcls⟩ := from_path_ok h2
              obtain ⟨-, -, -, -, hmeth⟩ := hcls c hcm
              subst hceq
              subst hceq2
              obtain ⟨h1', h2', h3', -⟩ := hmeth f hf
              left
              simp only [backRefCount, h1', h2', h3', if_true, ite_true]
              split <;> omega
            · -- functions of sibling modules
              rw [List.mem_flatten] at hf
              obtain ⟨ms, hms, hf⟩ := hf
              rw [List.mem_map] at hms
              obtain ⟨m2, hm2, hmeq⟩ := hms
              subst hmeq
              unfold Package.find_modules at h3
              obtain ⟨mp, -, hok⟩ := mapME_ok_mem _ _ _ h3 m2 hm2
              exact Or.inl (module_backRefCount hok f hf)
            · -- functions of subpackages, recursively
              rw [List.mem_flatten] at hf
              obtain ⟨ms, hms, hf⟩ := hf
              rw [List.mem_map] at hms
              obtain ⟨sp, hsp, hspeq⟩ := hms
              subst hspeq
              obtain ⟨d, -, hok⟩ := mapME_ok_mem _ _ _ h4 sp hsp
              exact ih _ _ sp hok f hf

theorem C2_back_references_witness :
    backRefCount fC2 ≤ 1 ∨
    (fC2.class_name = EMPTY_STRING ∧ fC2.module_name = fC2.package_name ∧
      fC2.package_name ≠ EMPTY_STRING) :=
  C2_back_references_amended fsC2 1 ("p") EMPTY_STRING pkgC2 rfl fC2
    (by simp [pkgC2, Package.all_functions, fC2])

/-- A successfully loaded package records the requested dotted name, and its
`_path` is exactly what resolving `{name as path}/__init__.py` against the
global search roots returns. -/
theorem load_ok_resolves {fs : FS} {fuel : Nat} {n pn : String} {p : Package}
    (h : Package.load fs fuel n pn = .ok p) :
    p.name = n ∧
    find_in_sys_path fs (splitDots n ++ ["__init__.py"]) = .ok p.path := by
  cases fuel with
  | zero => exact absurd h (by simp [Package.load])
  | succ fuel =>
    rw [Package.load_succ] at h
    simp only [Package.load_body] at h
    split at h
    next e h1 => exact absurd h (by simp)
    next path h1 =>
      split at h
      next e h2 => exact absurd h (by simp)
      next pm h2 =>
        split at h
        next e h3 => exact absurd h (by simp)
        next mods h3 =>
          split at h
          next e h4 => exact absurd h (by simp)
          next subs h4 =>
            simp only [Except.ok.injEq] at h
            subst h
            exact ⟨rfl, by simpa [Package.path] using h1⟩

/-- Two search roots; package `p` exists only under root `b`, but the
relative path `p/q/__init__.py` exists under both roots, with root `a`
earlier on the search path. -/
def fsC10 : FS where
  sys_path := [["a"], ["b"]]
  isDir := fun p =>
    p == ["a"] || p == ["b"] || p == ["b", "p", "q"] || p == ["a", "p", "q"]
  isFile := fun p =>
    p == ["b", "p", "__init__.py"] || p == ["b", "p", "q", "__init__.py"]
      || p == ["a", "p", "q", "__init__.py"]
  listDir := fun p => if p == ["b", "p"] then ["__init__.py", "q"] else []
  parsed := fun _ => { doc := none, classdefs := [], funcdefs := [] }

/-- The subpackage `p.q` as loaded from `fsC10`: discovered under
`b/p/`, but resolved from scratch to root `a`. -/
def pkgC10q : Package :=
  Package.mk ("p.q") EMPTY_STRING ("p") [] [] [] [] ["a", "p", "q", "__init__.py"]

/-- The package `p` as loaded from `fsC10`. -/
def pkgC10 : Package :=
  Package.mk ("p") EMPTY_STRING EMPTY_STRING [] [] [] [pkgC10q]
    ["b", "p", "__init__.py"]

/-- Claim C10: each subpackage discovered under a parent's resolved
directory is constructed by re-resolving its full dotted name against the
global search roots from scratch, so its resolved `__init__.py` is the
first match across all roots — which, as `fsC10` shows, need not lie under
the parent package's own resolved directory when an earlier root also
contains that relative path. -/
theorem C10_subpackage_resolution :
    (∀ (fs : FS) (fuel : Nat) (name package_name : String) (p : Package),
      Package.load fs fuel name package_name = .ok p →
      ∀ sp ∈ p.subpackages,
        find_in_sys_path fs (splitDots sp.name ++ ["__init__.py"]) =
          .ok sp.path) ∧
    (Package.load fsC10 2 ("p") EMPTY_STRING = .ok pkgC10 ∧
      pkgC10.path = ["b", "p", "__init__.py"] ∧
      pkgC10.subpackages = [pkgC10q] ∧
      pkgC10q.name = "p.q" ∧
      pkgC10q.path = ["a", "p", "q", "__init__.py"] ∧
      List.isPrefixOf ["b", "p"] pkgC10q.path = false) := by
  constructor
  · intro fs fuel name pn p h sp hsp
    cases fuel with
    | zero => exact absurd h (by simp [Package.load])
    | succ fuel =>
      rw [Package.load_succ] at h
      simp only [Package.load_body] at h
      split at h
      next e h1 => exact absurd h (by simp)
      next path h1 =>
        split at h
        next e h2 => exact absurd h (by simp)
        next pm h2 =>
          split at h
          next e h3 => exact absurd h (by simp)
          next mods h3 =>
            split at h
            next e h4 => exact absurd h (by simp)
            next subs h4 =>
              simp only [Except.ok.injEq] at h
              subst h
              simp only [Package.subpackages] at hsp
              obtain ⟨d, -, hok⟩ := mapME_ok_mem _ _ _ h4 sp hsp
              obtain ⟨hname, hres⟩ := load_ok_resolves hok
              rw [hname]
              exact hres
  · exact ⟨rfl, rfl, rfl, rfl, rfl, rfl⟩

theorem C10_subpackage_resolution_witness :
    find_in_sys_path fsC10 (splitDots pkgC10q.name ++ ["__init__.py"]) =
      .ok pkgC10q.path :=
  C10_subpackage_resolution.1 fsC10 2 ("p") EMPTY_STRING pkgC10 rfl pkgC10q
    (by simp [pkgC10, Package.subpackages])

/-- The JSON documents pydantic renders, abstracted from indentation and
escaping: strings, arrays, and objects with ordered fields. -/
inductive JValue where
  | str (s : String)
  | arr (elems : List JValue)
  | obj (fields : List (String × JValue))

/-- The fields pydantic serializes for a `FunctionDef`, in declaration
order, with no exclusions. -/
def FunctionDef.json_fields (f : FunctionDef) : List (String × JValue) :=
  [("docstring", JValue.str f.docstring),
   ("name", JValue.str f.name),
   ("namespace", JValue.str f.name_space),
   ("class_name", JValue.str f.class_name),
   ("module_name", JValue.str f.module_name),
   ("package_name", JValue.str f.package_name)]

/-- The fields pydantic serializes for a `ClassDef`, in declaration order,
with no exclusions; methods are nested `FunctionDef` objects. -/
def ClassDef.json_fields (c : ClassDef) : List (String × JValue) :=
  [("docstring", JValue.str c.docstring),
   ("name", JValue.str c.name),
   ("namespace", JValue.str c.name_space),
   ("module_name", JValue.str c.module_name),
   ("package_name", JValue.str c.package_name),
   ("methods", JValue.arr (c.methods.map (fun m => JValue.obj m.json_fields)))]

/-- pydantic's `exclude` on one object's immediate fields. -/
def excludeFields (fields : List (String × JValue)) (excl : List String) :
    List (String × JValue) :=
  fields.filter (fun kv => !(excl.contains kv.1))

/-- `Module.to_json`: all module fields in declaration order, with
`exclude` dropping `module_name` and `package_name` from every item of
`classes` (and nothing else). -/
def PyModule.to_json (m : PyModule) : JValue :=
  JValue.obj
    [("namespace", JValue.str m.name_space),
     ("docstring", JValue.str m.docstring),
     ("classes", JValue.arr (m.classes.map (fun c =>
        JValue.obj (excludeFields c.json_fields ["module_name", "package_name"])))),
     ("functions", JValue.arr (m.functions.map (fun f =>
        JValue.obj f.json_fields))),
     ("package_name", JValue.str m.package_name)]

/-- Value of a top-level key of a JSON object, if present. -/
def JValue.lookup : JValue → String → Option JValue
  | .obj fields, key => (fields.find? (fun kv => kv.1 == key)).map Prod.snd
  | _, _ => none

/-- A module that was loaded by package `p`. -/
def mC8 : PyModule where
  name_space := "p.m"
  docstring := EMPTY_STRING
  classes := []
  functions := []
  package_name := "p"

/-- Claim C8 fails on the code: a module's serialized JSON does carry its
`package_name` back-reference.  The `exclude` in `Module.to_json` targets
the `module_name`/`package_name` fields of the nested classes, not the
module's own `package_name` field. -/
theorem C8_module_to_json_counterexample :
    (PyModule.to_json mC8).lookup ("package_name") = some (JValue.str ("p")) := rfl

/-- Claim C8, amended: the module's own `package_name` field is present in
its serialized JSON; what the serialization omits are the `module_name`
and `package_name` back-references of each class nested under `classes`. -/
theorem C8_module_to_json_amended (m : PyModule) :
    (PyModule.to_json m).lookup ("package_name") =
      some (JValue.str m.package_name) ∧
    (PyModule.to_json m).lookup ("classes") =
      some (JValue.arr (m.classes.map (fun c =>
        JValue.obj (excludeFields c.json_fields
          ["module_name", "package_name"])))) ∧
    (∀ c ∈ m.classes,
      (JValue.obj (excludeFields c.json_fields
        ["module_name", "package_name"])).lookup ("module_name") = none ∧
      (JValue.obj (excludeFields c.json_fields
        ["module_name", "package_name"])).lookup ("package_name") = none) := by
  refine ⟨rfl, rfl, ?_⟩
  intro c hc
  constructor <;> rfl

/-- A module with one class, exercising both halves of the amended C8. -/
def mC8w : PyModule where
  name_space := "p.m"
  docstring := EMPTY_STRING
  classes := [{ docstring := EMPTY_STRING, name := "C", name_space := "p.m.C",
                module_name := "p.m", package_name := EMPTY_STRING,
                methods := [] }]
  functions := []
  package_name := "p"

theorem C8_module_to_json_witness :
    (PyModule.to_json mC8w).lookup ("package_name") =
      some (JValue.str mC8w.package_name) ∧
    (JValue.obj (excludeFields
        { docstring := EMPTY_STRING, name := "C", name_space := "p.m.C",
          module_name := "p.m", package_name := EMPTY_STRING,
          methods := [] : ClassDef }.json_fields
        ["module_name", "package_name"])).lookup ("module_name") = none :=
  ⟨(C8_module_to_json_amended mC8w).1,
   ((C8_module_to_json_amended mC8w).2.2 _ (by simp [mC8w])).1⟩

theorem C7_find_node_docstring_witness :
    find_node_docstring (some (DocNode.subtree ("Composite doc node text"))) =
      DocNode.str (DocNode.subtree ("Composite doc node text")) :=
  C7_find_node_docstring.2.2 (DocNode.subtree ("Composite doc node text"))
    (fun value => by simp)
